import Mathlib

/-!
Verification development for the bwin betting monitor
(`src/bwin_bet_monitor_final.py`), a shallow embedding of the monitor's
pure core: heuristic bet extraction, deduplication, history persistence,
proxy verification, staged start-up, and the bounded-error monitoring loop.
Strings are modelled as Lean `String` (character lists), Python `set` as a
duplicate-free list, the file system and the collaborators (browser, HTTP,
messaging) as explicit effect values.
-/

set_option maxRecDepth 100000

namespace BetMonitor

/-! ### Python string primitives

Executable models of the Python string operations the monitor relies on:
`in` (substring test), `str.strip`, `str.split('\n')`, `str.lower`, and the
regex `\d+\.\d{2}` used for decimal odds. -/

/-- Model of Python's `pat in s` on character lists: `pat` occurs as a
contiguous run of `l`. -/
def containsSeq (pat : List Char) : List Char → Bool
  | [] => pat.isEmpty
  | c :: rest => pat.isPrefixOf (c :: rest) || containsSeq pat rest

/-- Model of Python's `pat in s` for strings. -/
def strContains (s pat : String) : Bool :=
  containsSeq pat.toList s.toList

/-- Drop trailing whitespace characters (right half of Python `str.strip`). -/
def stripTrailing : List Char → List Char
  | [] => []
  | c :: rest =>
    let r := stripTrailing rest
    if r.isEmpty && c.isWhitespace then [] else c :: r

/-- Model of Python's `str.strip()` on character lists. -/
def pyStrip (cs : List Char) : List Char :=
  stripTrailing (cs.dropWhile Char.isWhitespace)

/-- Model of Python's `str.strip()`. -/
def pyStripStr (s : String) : String :=
  (pyStrip s.toList).asString

/-- Model of Python's `str.split('\n')` on character lists: always returns at
least one piece, keeps empty pieces. -/
def splitOnNl : List Char → List (List Char)
  | [] => [[]]
  | c :: rest =>
    let r := splitOnNl rest
    if c = '\n' then [] :: r
    else
      match r with
      | [] => [[c]]
      | h :: t => (c :: h) :: t

/-- Model of Python's `text.split('\n')`. -/
def pySplit (s : String) : List String :=
  (splitOnNl s.toList).map List.asString

/-- Model of Python's `str.lower()` (ASCII case folding). -/
def pyLower (s : String) : String :=
  (s.toList.map Char.toLower).asString

/-- Model of `re.search(r'\d+\.\d{2}', line)`: the regex has a match in a
line iff some four consecutive characters are digit, `'.'`, digit, digit
(any match of `\d+\.\d{2}` ends in such a block, and such a block is itself
a match). -/
def hasOdds : List Char → Bool
  | a :: b :: c :: d :: rest =>
    (a.isDigit && b == '.' && c.isDigit && d.isDigit) || hasOdds (b :: c :: d :: rest)
  | _ => false

/-- String form of the decimal-odds pattern test. -/
def hasOddsLine (s : String) : Bool :=
  hasOdds s.toList

/-- Model of Python's `a or b` for an optional string where `None` and `""`
are both falsy (used for `element.get_attribute('id') or f"bet_..."`). -/
def pyOr (s : Option String) (dflt : String) : String :=
  match s with
  | some v => if v = "" then dflt else v
  | none => dflt

/-! ### Bet records (`BetInfo` dataclass)

The `bet_time` field (wall-clock `datetime.now()`) is outside the shallow
embedding and omitted; all other fields are kept. -/

/-- Embedding of the `BetInfo` dataclass (lines 125-148). -/
structure BetInfo where
  betslip_id : String
  teams : String
  market : String
  stake : String
  odds : String
  possible_winnings : String
  status : String
deriving DecidableEq

/-! ### Field extraction heuristics (`EnhancedBetMonitor._extract_*`) -/

/-- Embedding of `_extract_teams` (lines 759-764): first line containing a separator
token, else the first line, else the sentinel. -/
def extract_teams (lines : List String) : String :=
  match lines.find? (fun line =>
      strContains line " vs " || strContains line " v " || strContains line " - ") with
  | some line => line
  | none => lines.headD "Unknown Teams"

/-- Market vocabulary of `_extract_market` (line 768). -/
def marketKeywords : List String := ["1X2", "Over", "Under", "BTTS", "Handicap", "Draw"]

/-- Embedding of `_extract_market` (lines 766-773): first line containing a market
keyword, else the sentinel. -/
def extract_market (lines : List String) : String :=
  match lines.find? (fun line => marketKeywords.any (fun k => strContains line k)) with
  | some line => line
  | none => "Unknown Market"

/-- Embedding of `_extract_stake` (lines 775-780): first line containing a currency
symbol, else the sentinel. -/
def extract_stake (lines : List String) : String :=
  match lines.find? (fun line =>
      strContains line "€" || strContains line "$" || strContains line "£") with
  | some line => line
  | none => "Unknown Stake"

/-- Embedding of `_extract_odds` (lines 782-789): first line matching the decimal-odds
pattern, else the sentinel. -/
def extract_odds (lines : List String) : String :=
  match lines.find? hasOddsLine with
  | some line => line
  | none => "Unknown Odds"

/-- Payout vocabulary of `_extract_winnings` (line 793). -/
def winningsKeywords : List String := ["win", "return", "payout"]

/-- Embedding of `_extract_winnings` (lines 791-797): first line whose lower-casing
contains a payout keyword, else the sentinel. -/
def extract_winnings (lines : List String) : String :=
  match lines.find? (fun line => winningsKeywords.any (fun k => strContains (pyLower line) k)) with
  | some line => line
  | none => "Unknown Winnings"

/-- Embedding of `_extract_bet_info` (lines 706-733): strip the container's rendered
text, discard it when shorter than 10 characters, otherwise split into
lines and run the five independent field matchers. -/
def extract_bet_info (betId : String) (rawText : String) : Option BetInfo :=
  let text := pyStripStr rawText
  if text.length < 10 then none
  else
    let lines := pySplit text
    some { betslip_id := betId
           teams := extract_teams lines
           market := extract_market lines
           stake := extract_stake lines
           odds := extract_odds lines
           possible_winnings := extract_winnings lines
           status := "Active" }

/-- Embedding of `_extract_bet_from_row` (lines 735-757): rows with fewer than three
cells are discarded; otherwise the first five stripped cell texts map
positionally onto the fields, missing cells defaulting to `"Unknown"`. -/
def extract_bet_from_row (t idx : Nat) (cells : List String) : Option BetInfo :=
  if cells.length < 3 then none
  else
    let cellTexts := cells.map pyStripStr
    some { betslip_id := "row_bet_" ++ toString t ++ "_" ++ toString idx
           teams := cellTexts.getD 0 "Unknown"
           market := cellTexts.getD 1 "Unknown"
           stake := cellTexts.getD 2 "Unknown"
           odds := cellTexts.getD 3 "Unknown"
           possible_winnings := cellTexts.getD 4 "Unknown"
           status := "Active" }

/-- One candidate bet-slip container: its DOM id attribute (possibly absent
or empty) and its rendered text. -/
structure Container where
  elemId : Option String
  text : String
deriving DecidableEq

/-- Strategy A of `scan_for_bets` (lines 656-684): extract from each
container, synthesizing `bet_<time>_<index>` ids where the element has no
usable id. -/
def strategyA (t : Nat) (containers : List Container) : List BetInfo :=
  containers.enum.filterMap fun ic =>
    extract_bet_info (pyOr ic.2.elemId ("bet_" ++ toString t ++ "_" ++ toString ic.1)) ic.2.text

/-- Embedding of `scan_for_bets` (lines 650-704): strategy A over containers; only when
it yields zero records, strategy B over table rows. The boolean reports
whether the table-row fallback was invoked. -/
def scan_for_bets (t : Nat) (containers : List Container) (rows : List (List String)) :
    List BetInfo × Bool :=
  let bets := strategyA t containers
  if bets.isEmpty then
    (rows.enum.filterMap (fun ir => extract_bet_from_row t ir.1 ir.2), true)
  else
    (bets, false)

/-! ### Deduplication store (`EnhancedBetMonitor.known_bets` / `bet_history`)

The Python `set` of seen betslip ids is modelled as a duplicate-free list
(the code only ever inserts an id after checking it is absent, so list
membership and list append model set membership and insertion exactly). -/

/-- The mutable dedup state of `EnhancedBetMonitor.__init__` (lines
590-594): the set of known betslip ids and the append-only history. -/
structure MonitorData where
  knownBets : List String
  betHistory : List BetInfo
deriving DecidableEq

/-- Fresh monitor state (`known_bets = set()`, `bet_history = []`). -/
def initMonitorData : MonitorData := ⟨[], []⟩

/-- Embedding of `check_for_new_bets` (lines 799-811) applied to an already-scanned list
of bets: each bet whose id is absent from the seen-set is accepted, its id
added and the record appended; returns the accepted bets and the updated
state. -/
def check_for_new_bets (scanned : List BetInfo) (st : MonitorData) :
    List BetInfo × MonitorData :=
  match scanned with
  | [] => ([], st)
  | bet :: rest =>
    if st.knownBets.contains bet.betslip_id then
      check_for_new_bets rest st
    else
      let st' : MonitorData :=
        ⟨st.knownBets ++ [bet.betslip_id], st.betHistory ++ [bet]⟩
      let r := check_for_new_bets rest st'
      (bet :: r.1, r.2)

/-! ### History persistence (`save_bet_history`, lines 813-828)

The file system is modelled as the contents of the target file (`none` if
absent, otherwise the written chunks in order), and `save_bet_history` as
the sequence of file operations it performs: `open(filename, 'w')`
truncates the destination in place, then `json.dump` streams the payload.
There is no temp file and no rename in the code. -/

/-- One file operation against the history file. -/
inductive FsOp where
  | openTrunc : FsOp
  | writeChunk : String → FsOp
deriving DecidableEq

/-- Effect of one operation on the history file's content. -/
def applyOp (f : Option (List String)) : FsOp → Option (List String)
  | .openTrunc => some []
  | .writeChunk c =>
    match f with
    | some cs => some (cs ++ [c])
    | none => none

/-- Run a list of file operations from an initial file content. -/
def runOps (f : Option (List String)) (ops : List FsOp) : Option (List String) :=
  ops.foldl applyOp f

/-- One serialized bet record (`BetInfo.to_dict`, lines 137-148). -/
def betJson (b : BetInfo) : String :=
  "\x7b\"betslip_id\": \"" ++ b.betslip_id ++ "\", \"teams\": \"" ++ b.teams ++
    "\", \"market\": \"" ++ b.market ++ "\", \"stake\": \"" ++ b.stake ++
    "\", \"odds\": \"" ++ b.odds ++ "\", \"possible_winnings\": \"" ++
    b.possible_winnings ++ "\", \"status\": \"" ++ b.status ++ "\"\x7d"

/-- The serialized ledger, chunked as the writer emits it: a header with
timestamp and total count, one chunk per record, a footer (lines 816-823). -/
def serializeHistory (now : String) (bets : List BetInfo) : List String :=
  ("\x7b\"last_updated\": \"" ++ now ++ "\", \"total_bets\": " ++
      toString bets.length ++ ", \"bets\": [") ::
    bets.map betJson ++ ["]\x7d"]

/-- The file operations `save_bet_history` performs, in order: truncate the
destination, then stream the payload (lines 822-823). -/
def save_bet_history_ops (now : String) (bets : List BetInfo) : List FsOp :=
  FsOp.openTrunc :: (serializeHistory now bets).map FsOp.writeChunk

/-- The crash-safety discipline the specification demands of `persist`: at
every prefix of the operation sequence the destination file holds either
its previous good content or the complete new content. -/
def CrashSafe (ops : List FsOp) (old : Option (List String)) : Prop :=
  ∀ k : Nat, runOps old (ops.take k) = old ∨ runOps old (ops.take k) = runOps old ops

/-! ### Proxy verification (`ProxyVerifier.verify_proxy`, lines 153-197)

Each IP-echo service probe is abstracted to its observable outcome: a
transport failure (timeout, connection error, malformed body raising inside
the client — all caught as `RequestException` and skipped), or a response
with a status code and the address string the code derives from the body. -/

/-- Outcome of probing one IP-echo service through the proxy. -/
inductive ServiceOutcome where
  | exn : ServiceOutcome
  | resp : Nat → String → ServiceOutcome
deriving DecidableEq

/-- A service outcome confirms the proxy: HTTP 200 and the reported address
equals the expected one. -/
def serviceMatches (expected : String) : ServiceOutcome → Bool
  | .exn => false
  | .resp status ip => status == 200 && ip == expected

/-- Embedding of `verify_proxy` (lines 165-197): walk the services in priority order,
return true at the first 200-response whose address matches, fall through
to the next service on an exception, a non-200 status, or a mismatch, and
return false when the list is exhausted. -/
def verify_proxy (expected : String) : List ServiceOutcome → Bool
  | [] => false
  | o :: rest =>
    match o with
    | .exn => verify_proxy expected rest
    | .resp status ip =>
      if status == 200 && ip == expected then true
      else verify_proxy expected rest

/-! ### Start-up sequencing (`BwinBetMonitor.initialize`, lines 928-996)

The collaborators are abstracted to their success booleans and the method
to the ordered trace of side effects it performs. When the browser launch
raises, `telegram_notifier` is still `None` at line 991, so no failure
status is sent on that path. The login stage internally retries up to
three times (lines 475-488); it appears in the trace as one
`loginStage` effect whose boolean outcome is the stage's overall result. -/

/-- Observable side effects of start-up. -/
inductive InitEffect where
  | verifyProxyCheck : InitEffect
  | launchBrowser : InitEffect
  | makeNotifier : InitEffect
  | statusNotif : InitEffect
  | loginStage : InitEffect
  | navigateHistory : InitEffect
  | cleanupRun : InitEffect
deriving DecidableEq

/-- Success outcomes of the external collaborators during start-up. -/
structure InitEnv where
  proxyOk : Bool
  launchOk : Bool
  loginOk : Bool
  navOk : Bool
deriving DecidableEq

/-- Embedding of `initialize` (lines 928-996): returns whether monitoring may start and
the ordered trace of side effects performed. -/
def initMonitor (env : InitEnv) : Bool × List InitEffect :=
  let t0 := [InitEffect.verifyProxyCheck]
  if !env.proxyOk then
    (false, t0 ++ [.makeNotifier, .statusNotif])
  else
    let t1 := t0 ++ [InitEffect.launchBrowser]
    if !env.launchOk then
      (false, t1 ++ [.cleanupRun])
    else
      let t2 := t1 ++ [InitEffect.makeNotifier, InitEffect.statusNotif, InitEffect.loginStage]
      if !env.loginOk then
        (false, t2 ++ [.statusNotif, .cleanupRun])
      else
        let t3 := t2 ++ [InitEffect.navigateHistory]
        if !env.navOk then
          (false, t3 ++ [.statusNotif, .cleanupRun])
        else
          (true, t3 ++ [.statusNotif])

/-! ### Monitoring loop (`BwinBetMonitor.run_monitoring_loop`, lines 998-1077)

Each iteration's environment is `some scanned` (the page scan succeeded and
produced `scanned`) or `none` (the refresh or scan raised). Notifier and
persistence calls swallow their own errors (lines 871-884, 827-828), so
they never raise into the loop; the only in-loop raise after a successful
scan is the hourly-status computation `check_count % (3600 // check_interval)`
(line 1037), which divides by zero when `3600 // check_interval = 0`. -/

/-- Loop configuration: `check_interval` and `max_errors` (line 998). -/
structure LoopCfg where
  checkInterval : Nat
  maxErrors : Nat
deriving DecidableEq

/-- Observable loop state: counters, notification tallies, the stop flag
set by the error-budget `break`, and the dedup store. -/
structure LoopState where
  checkCount : Nat
  consecutiveErrors : Nat
  stopped : Bool
  terminalNotifs : Nat
  statusNotifs : Nat
  betNotifs : Nat
  historySaves : Nat
  monitor : MonitorData
deriving DecidableEq

/-- The loop's starting state (lines 1005-1006 and the fresh monitor). -/
def initLoopState : LoopState :=
  { checkCount := 0, consecutiveErrors := 0, stopped := false,
    terminalNotifs := 0, statusNotifs := 0, betNotifs := 0,
    historySaves := 0, monitor := initMonitorData }

/-- The `except` block (lines 1043-1059): count the error; at the budget,
send the terminal status and break; below it, attempt one re-navigation
(its outcome ignored) and continue. -/
def loopFail (cfg : LoopCfg) (s : LoopState) : LoopState :=
  let ce := s.consecutiveErrors + 1
  if cfg.maxErrors ≤ ce then
    { s with consecutiveErrors := ce, terminalNotifs := s.terminalNotifs + 1, stopped := true }
  else
    { s with consecutiveErrors := ce }

/-- One loop iteration (lines 1009-1063). On a successful scan: dedup the
scanned bets, notify and persist when any are new, reset the error counter,
then evaluate the hourly-status condition — which raises `ZeroDivisionError`
into the handler when `3600 / checkInterval = 0`. -/
def loopStep (cfg : LoopCfg) (s : LoopState) (scan : Option (List BetInfo)) : LoopState :=
  let s := { s with checkCount := s.checkCount + 1 }
  match scan with
  | none => loopFail cfg s
  | some scanned =>
    let r := check_for_new_bets scanned s.monitor
    let s := { s with monitor := r.2 }
    let s :=
      if r.1.isEmpty then s
      else { s with betNotifs := s.betNotifs + r.1.length, historySaves := s.historySaves + 1 }
    let s := { s with consecutiveErrors := 0 }
    if 3600 / cfg.checkInterval == 0 then
      loopFail cfg s
    else if s.checkCount % (3600 / cfg.checkInterval) == 0 then
      { s with statusNotifs := s.statusNotifs + 1 }
    else s

/-- Embedding of `run_monitoring_loop` over a finite schedule of iteration environments;
the `break` (modelled by `stopped`) ends consumption of the schedule. -/
def run_monitoring_loop (cfg : LoopCfg) (s : LoopState) :
    List (Option (List BetInfo)) → LoopState
  | [] => s
  | scan :: rest =>
    if s.stopped then s
    else run_monitoring_loop cfg (loopStep cfg s scan) rest

/-- The default configuration: `check_interval = 30`, `max_errors = 5`
(line 998). -/
def cfg30 : LoopCfg := ⟨30, 5⟩

/-- A concrete bet record used to instantiate several theorems. -/
def sampleBet : BetInfo :=
  ⟨"bet_1", "A vs B", "1X2 Home", "€5.00 stake", "2.00", "Possible win €10.00", "Active"⟩

/-- The C1 scenario text block from the specification. -/
def scenarioText : String :=
  "Arsenal vs Chelsea\n1X2 Home\n€25.00 stake\n2.40\nPossible win €60.00"

/-! ## Proof section -/

/-! ### Proxy verification (claim C5) -/

/-- The service walk is exactly an existence check for a matching service. -/
theorem verify_proxy_eq_any (expected : String) (outs : List ServiceOutcome) :
    verify_proxy expected outs = outs.any (serviceMatches expected) := by
  induction outs with
  | nil => rfl
  | cons o rest ih =>
    cases o with
    | exn => simp [verify_proxy, serviceMatches]; exact ih
    | resp status ip =>
      by_cases hc : (status == 200 && ip == expected) = true
      · simp [verify_proxy, serviceMatches, hc]
      · simp [verify_proxy, serviceMatches, hc, ih]

/-- Claim C5: `ProxyVerifier.verify_proxy` tries the IP-echo services in
priority order; it returns true exactly when some service responds 200
with the expected address, succeeds immediately at the first such service,
falls through past any service that fails or mismatches, and returns false
iff every service fails or mismatches. -/
theorem verify_proxy_spec (expected : String) (outs : List ServiceOutcome) :
    (verify_proxy expected outs = true ↔ ∃ o ∈ outs, serviceMatches expected o = true)
    ∧ (verify_proxy expected outs = false ↔ ∀ o ∈ outs, serviceMatches expected o = false)
    ∧ (∀ o rest, serviceMatches expected o = true → verify_proxy expected (o :: rest) = true)
    ∧ (∀ o rest, serviceMatches expected o = false →
        verify_proxy expected (o :: rest) = verify_proxy expected rest) := by
  refine ⟨?_, ?_, ?_, ?_⟩
  · rw [verify_proxy_eq_any]; exact List.any_eq_true
  · rw [verify_proxy_eq_any]
    simp [List.any_eq_false, Bool.not_eq_true]
  · intro o rest ho
    cases o with
    | exn => simp [serviceMatches] at ho
    | resp status ip =>
      have hb : (status == 200 && ip == expected) = true := ho
      simp [verify_proxy, hb]
  · intro o rest ho
    cases o with
    | exn => rfl
    | resp status ip =>
      have hb : (status == 200 && ip == expected) = false := ho
      simp [verify_proxy, hb]

/-- Witness for claim C5 at concrete service outcomes. -/
theorem verify_proxy_spec_witness :
    verify_proxy "203.0.113.9"
        [ServiceOutcome.exn, ServiceOutcome.resp 500 "203.0.113.9",
         ServiceOutcome.resp 200 "198.51.100.1", ServiceOutcome.resp 200 "203.0.113.9"] = true
    ∧ verify_proxy "203.0.113.9" [ServiceOutcome.exn, ServiceOutcome.resp 200 "203.0.113.8"] = false :=
  ⟨(verify_proxy_spec "203.0.113.9" _).1.mpr
      ⟨ServiceOutcome.resp 200 "203.0.113.9", by decide, by decide⟩,
   (verify_proxy_spec "203.0.113.9" _).2.1.mpr (by decide)⟩

/-! ### Start-up kill switch (claim C4) -/

/-- Claim C4: when proxy verification fails, `initialize` stops at once —
it reports failure, never launches a browser session, never attempts the
login stage, and performs exactly the verify/notify trace. -/
theorem init_proxy_kill_switch (env : InitEnv) (h : env.proxyOk = false) :
    (initMonitor env).1 = false
    ∧ InitEffect.launchBrowser ∉ (initMonitor env).2
    ∧ InitEffect.loginStage ∉ (initMonitor env).2
    ∧ (initMonitor env).2 =
        [InitEffect.verifyProxyCheck, InitEffect.makeNotifier, InitEffect.statusNotif] := by
  simp [initMonitor, h]

/-- Witness for claim C4 at a concrete environment. -/
theorem init_proxy_kill_switch_witness :
    (initMonitor ⟨false, true, true, true⟩).1 = false
    ∧ InitEffect.launchBrowser ∉ (initMonitor ⟨false, true, true, true⟩).2
    ∧ InitEffect.loginStage ∉ (initMonitor ⟨false, true, true, true⟩).2
    ∧ (initMonitor ⟨false, true, true, true⟩).2 =
        [InitEffect.verifyProxyCheck, InitEffect.makeNotifier, InitEffect.statusNotif] :=
  init_proxy_kill_switch ⟨false, true, true, true⟩ rfl

/-! ### History persistence (claim C2) -/

/-- Claim C2 (code bug): `save_bet_history` opens the destination with
truncating mode and streams into it directly — no temp file, no replace —
so the crash point right after the truncating open leaves the file holding
neither the previous good content nor the new content. -/
theorem save_history_not_crash_safe :
    ¬ CrashSafe (save_bet_history_ops "2024-01-01T00:00:00" [sampleBet]) (some ["OLDDATA"]) := by
  intro h
  have h1 := h 1
  revert h1
  decide

/-! ### Table-row fallback (claim C8) -/

/-- Claim C8 counterexample: a table row with only two cells is discarded
(the code requires at least three cells), not mapped to a record with
`"Unknown"` defaults as the claim states for every row. -/
theorem extract_row_short_counterexample :
    extract_bet_from_row 0 0 ["Alpha", "Beta"] = none
    ∧ extract_bet_from_row 0 0 ["Alpha", "Beta"] ≠
        some ⟨"row_bet_0_0", "Alpha", "Beta", "Unknown", "Unknown", "Unknown", "Active"⟩ := by
  decide

/-- Claim C8 (amended): the table-row fallback is invoked iff the
container strategy yields zero records; every table row with at least
three cells maps its first five cell texts positionally onto the fields
with missing cells defaulting to `"Unknown"`; rows with fewer than three
cells yield no record. -/
theorem scan_fallback_spec :
    (∀ t containers rows,
      (scan_for_bets t containers rows).2 = true ↔ strategyA t containers = [])
    ∧ (∀ t containers rows, strategyA t containers ≠ [] →
        scan_for_bets t containers rows = (strategyA t containers, false))
    ∧ (∀ t containers rows, strategyA t containers = [] →
        scan_for_bets t containers rows =
          (rows.enum.filterMap (fun ir => extract_bet_from_row t ir.1 ir.2), true))
    ∧ (∀ t idx cells, 3 ≤ cells.length →
        extract_bet_from_row t idx cells =
          some ⟨"row_bet_" ++ toString t ++ "_" ++ toString idx,
                (cells.map pyStripStr).getD 0 "Unknown",
                (cells.map pyStripStr).getD 1 "Unknown",
                (cells.map pyStripStr).getD 2 "Unknown",
                (cells.map pyStripStr).getD 3 "Unknown",
                (cells.map pyStripStr).getD 4 "Unknown", "Active"⟩)
    ∧ (∀ t idx cells, cells.length < 3 → extract_bet_from_row t idx cells = none) := by
  refine ⟨?_, ?_, ?_, ?_, ?_⟩
  · intro t containers rows
    by_cases h : (strategyA t containers).isEmpty = true
    · simp [scan_for_bets, h, List.isEmpty_iff.mp h]
    · simp only [scan_for_bets, h]
      simpa using fun hc => h (by simp [hc])
  · intro t containers rows h
    have : (strategyA t containers).isEmpty = false := by
      cases hc : strategyA t containers with
      | nil => exact absurd hc h
      | cons a l => simp [hc]
    simp [scan_for_bets, this]
  · intro t containers rows h
    simp [scan_for_bets, h]
  · intro t idx cells h
    rw [extract_bet_from_row, if_neg (Nat.not_lt.mpr h)]
  · intro t idx cells h
    rw [extract_bet_from_row, if_pos h]

/-- Witness for claim C8 at concrete rows. -/
theorem scan_fallback_spec_witness :
    extract_bet_from_row 1 2 ["x", "y", "z", "w"] =
      some ⟨"row_bet_1_2", "x", "y", "z", "w", "Unknown", "Active"⟩
    ∧ extract_bet_from_row 1 3 ["x"] = none :=
  ⟨(scan_fallback_spec.2.2.2.1 1 2 ["x", "y", "z", "w"] (by decide)).trans (by decide),
   scan_fallback_spec.2.2.2.2 1 3 ["x"] (by decide)⟩

/-! ### The extraction scenario (claim C1) -/

/-- Claim C1 counterexample: on the scenario block the odds field is
`"€25.00 stake"`, not `"2.40"` — the substring `"25.00"` already matches
the decimal-odds pattern `\d+\.\d{2}`, and that line precedes `"2.40"`. -/
theorem scenario_odds_counterexample :
    (extract_bet_info "bet_0" scenarioText).map BetInfo.odds = some "€25.00 stake"
    ∧ (extract_bet_info "bet_0" scenarioText).map BetInfo.odds ≠ some "2.40" := by
  decide

/-- Claim C1 (amended): the scenario block extracts to
participants `"Arsenal vs Chelsea"`, market `"1X2 Home"`, stake
`"€25.00 stake"`, payout `"Possible win €60.00"` as claimed, and odds
`"€25.00 stake"` — the genuinely first line matching the decimal-odds
pattern (the two lines before it do not match, `"€25.00 stake"` does). -/
theorem scenario_extraction_fields :
    extract_bet_info "bet_0" scenarioText =
      some ⟨"bet_0", "Arsenal vs Chelsea", "1X2 Home", "€25.00 stake", "€25.00 stake",
            "Possible win €60.00", "Active"⟩
    ∧ pySplit (pyStripStr scenarioText) =
        ["Arsenal vs Chelsea", "1X2 Home", "€25.00 stake", "2.40", "Possible win €60.00"]
    ∧ hasOddsLine "Arsenal vs Chelsea" = false
    ∧ hasOddsLine "1X2 Home" = false
    ∧ hasOddsLine "€25.00 stake" = true := by
  decide

/-! ### Deduplication (claims C7 and C10) -/

/-- Unfolding `check_for_new_bets` at an already-seen head record. -/
theorem check_cons_pos (bet : BetInfo) (rest : List BetInfo) (st : MonitorData)
    (h : bet.betslip_id ∈ st.knownBets) :
    check_for_new_bets (bet :: rest) st = check_for_new_bets rest st := by
  simp [check_for_new_bets, h]

/-- Unfolding `check_for_new_bets` at a fresh head record. -/
theorem check_cons_neg (bet : BetInfo) (rest : List BetInfo) (st : MonitorData)
    (h : bet.betslip_id ∉ st.knownBets) :
    check_for_new_bets (bet :: rest) st =
      (bet :: (check_for_new_bets rest
          ⟨st.knownBets ++ [bet.betslip_id], st.betHistory ++ [bet]⟩).1,
        (check_for_new_bets rest
          ⟨st.knownBets ++ [bet.betslip_id], st.betHistory ++ [bet]⟩).2) := by
  simp [check_for_new_bets, h]

/-- The updated store equals the old store with exactly the accepted ids
and records appended, in order. -/
theorem check_append_eq (scanned : List BetInfo) (st : MonitorData) :
    (check_for_new_bets scanned st).2.knownBets =
      st.knownBets ++ ((check_for_new_bets scanned st).1.map BetInfo.betslip_id)
    ∧ (check_for_new_bets scanned st).2.betHistory =
      st.betHistory ++ (check_for_new_bets scanned st).1 := by
  induction scanned generalizing st with
  | nil => simp [check_for_new_bets]
  | cons bet rest ih =>
    by_cases hc : bet.betslip_id ∈ st.knownBets
    · rw [check_cons_pos bet rest st hc]
      exact ih st
    · rw [check_cons_neg bet rest st hc]
      have h2 := ih ⟨st.knownBets ++ [bet.betslip_id], st.betHistory ++ [bet]⟩
      simp only at h2 ⊢
      rw [h2.1, h2.2]
      simp

/-- Every accepted record's id was absent from the seen-set the call
started from. -/
theorem check_accepted_not_known (scanned : List BetInfo) (st : MonitorData) :
    ∀ c ∈ (check_for_new_bets scanned st).1, c.betslip_id ∉ st.knownBets := by
  induction scanned generalizing st with
  | nil => simp [check_for_new_bets]
  | cons bet rest ih =>
    by_cases hc : bet.betslip_id ∈ st.knownBets
    · rw [check_cons_pos bet rest st hc]
      exact ih st
    · rw [check_cons_neg bet rest st hc]
      intro c hmem
      rcases List.mem_cons.mp hmem with rfl | hmem
      · exact hc
      · have := ih ⟨st.knownBets ++ [bet.betslip_id], st.betHistory ++ [bet]⟩ c hmem
        intro hin
        exact this (List.mem_append_left _ hin)

/-- Claim C7: deduplication is idempotent. Once an identifier is in the
seen-set, no record carrying it is ever accepted again (so nothing new is
notified or appended for it); the head record of a scan is accepted iff
its identifier is absent; and acceptance adds the identifier to the set
and appends the record to the history. -/
theorem dedup_idempotent (st : MonitorData) (scanned : List BetInfo) (targetId : String)
    (h : targetId ∈ st.knownBets) :
    (∀ c ∈ (check_for_new_bets scanned st).1, c.betslip_id ≠ targetId)
    ∧ (check_for_new_bets scanned st).2.betHistory =
        st.betHistory ++ (check_for_new_bets scanned st).1
    ∧ (∀ (b : BetInfo) (rest : List BetInfo),
        b ∈ (check_for_new_bets (b :: rest) st).1 ↔ b.betslip_id ∉ st.knownBets)
    ∧ (∀ (b : BetInfo) (rest : List BetInfo), b.betslip_id ∉ st.knownBets →
        b.betslip_id ∈ (check_for_new_bets (b :: rest) st).2.knownBets
        ∧ b ∈ (check_for_new_bets (b :: rest) st).2.betHistory) := by
  refine ⟨?_, (check_append_eq scanned st).2, ?_, ?_⟩
  · intro c hc heq
    exact check_accepted_not_known scanned st c hc (heq ▸ h)
  · intro b rest
    constructor
    · intro hmem hin
      exact check_accepted_not_known (b :: rest) st b hmem hin
    · intro hin
      rw [check_cons_neg b rest st hin]
      exact List.mem_cons_self b _
  · intro b rest hin
    have hk := (check_append_eq rest ⟨st.knownBets ++ [b.betslip_id], st.betHistory ++ [b]⟩).1
    have hh := (check_append_eq rest ⟨st.knownBets ++ [b.betslip_id], st.betHistory ++ [b]⟩).2
    rw [check_cons_neg b rest st hin]
    constructor
    · simp only at hk ⊢
      rw [hk]
      exact List.mem_append_left _ (List.mem_append_right _ (by simp))
    · simp only at hh ⊢
      rw [hh]
      exact List.mem_append_left _ (List.mem_append_right _ (by simp))

/-- Witness for claim C7: a record whose id was already accepted is not
accepted again. -/
theorem dedup_idempotent_witness :
    sampleBet ∉ (check_for_new_bets [sampleBet] ⟨["bet_1"], []⟩).1 := by
  intro hmem
  exact ((dedup_idempotent ⟨["bet_1"], []⟩ [sampleBet] "bet_1" (by decide)).2.2.1
    sampleBet []).mp hmem (by decide)

/-- The lockstep invariant between the seen-set and the history: equal
sizes andevery history record's identifier is a member of the set. -/
def MonitorInv (st : MonitorData) : Prop :=
  st.knownBets.length = st.betHistory.length
  ∧ ∀ b ∈ st.betHistory, b.betslip_id ∈ st.knownBets

/-- Claim C10: the seen-set and the history stay in lockstep — the
invariant holds initially, every `check_for_new_bets` call preserves it,
and both structures only grow, each call appending exactly the accepted
ids and records. -/
theorem dedup_lockstep (scanned : List BetInfo) (st : MonitorData) (h : MonitorInv st) :
    MonitorInv (check_for_new_bets scanned st).2
    ∧ (check_for_new_bets scanned st).2.knownBets =
        st.knownBets ++ ((check_for_new_bets scanned st).1.map BetInfo.betslip_id)
    ∧ (check_for_new_bets scanned st).2.betHistory =
        st.betHistory ++ (check_for_new_bets scanned st).1
    ∧ MonitorInv initMonitorData := by
  have hk := (check_append_eq scanned st).1
  have hh := (check_append_eq scanned st).2
  refine ⟨⟨?_, ?_⟩, hk, hh, by simp [MonitorInv, initMonitorData]⟩
  · rw [hk, hh]
    simp [h.1]
  · intro b hb
    rw [hh] at hb
    rw [hk]
    rcases List.mem_append.mp hb with hb | hb
    · exact List.mem_append_left _ (h.2 b hb)
    · exact List.mem_append_right _ (List.mem_map_of_mem BetInfo.betslip_id hb)

/-- Witness for claim C10 at a concrete call. -/
theorem dedup_lockstep_witness :
    MonitorInv (check_for_new_bets [sampleBet] initMonitorData).2 :=
  (dedup_lockstep [sampleBet] initMonitorData (by simp [MonitorInv, initMonitorData])).1

/-! ### Monitoring loop (claims C3 and C9) -/

/-- After the error-budget break the loop consumes nothing further. -/
theorem run_stopped_eq (cfg : LoopCfg) (s : LoopState) (h : s.stopped = true) :
    ∀ l, run_monitoring_loop cfg s l = s := by
  intro l
  cases l with
  | nil => rfl
  | cons x rest => simp [run_monitoring_loop, h]

/-- One-step unfolding of the loop while it is still running. -/
theorem run_cons_not_stopped (cfg : LoopCfg) (s : LoopState) (x : Option (List BetInfo))
    (rest : List (Option (List BetInfo))) (h : s.stopped = false) :
    run_monitoring_loop cfg s (x :: rest) =
      run_monitoring_loop cfg (loopStep cfg s x) rest := by
  simp [run_monitoring_loop, h]

/-- Running a concatenated schedule runs the pieces in sequence. -/
theorem run_append_eq (cfg : LoopCfg) :
    ∀ (l1 l2 : List (Option (List BetInfo))) (s : LoopState),
      run_monitoring_loop cfg s (l1 ++ l2) =
        run_monitoring_loop cfg (run_monitoring_loop cfg s l1) l2 := by
  intro l1
  induction l1 with
  | nil => intro l2 s; rfl
  | cons x l1' ih =>
    intro l2 s
    by_cases h : s.stopped = true
    · simp only [run_stopped_eq cfg s h]
    · have h' : s.stopped = false := by simpa [Bool.not_eq_true] using h
      simp only [List.cons_append, run_monitoring_loop, h', Bool.false_eq_true, if_false]
      exact ih l2 (loopStep cfg s x)

/-- Under the default configuration a successful-scan iteration resets the
consecutive-error counter, preserves the stop flag and the terminal
notification count, and advances the iteration counter by one. -/
theorem loopStep_some_cfg30 (s : LoopState) (scanned : List BetInfo) :
    (loopStep cfg30 s (some scanned)).consecutiveErrors = 0
    ∧ (loopStep cfg30 s (some scanned)).stopped = s.stopped
    ∧ (loopStep cfg30 s (some scanned)).terminalNotifs = s.terminalNotifs
    ∧ (loopStep cfg30 s (some scanned)).checkCount = s.checkCount + 1 := by
  have hq : (3600 / cfg30.checkInterval == 0) = false := by decide
  simp only [loopStep, hq, Bool.false_eq_true, if_false]
  split <;> split <;> simp

/-- Running any schedule of successful scans from an error-free state
keeps the loop running with the counter at zero, no terminal
notification, and one iteration per scan. -/
theorem run_successes_cfg30 (pre : List (List BetInfo)) :
    ∀ s : LoopState, s.stopped = false → s.consecutiveErrors = 0 →
      (run_monitoring_loop cfg30 s (pre.map some)).stopped = false
      ∧ (run_monitoring_loop cfg30 s (pre.map some)).consecutiveErrors = 0
      ∧ (run_monitoring_loop cfg30 s (pre.map some)).terminalNotifs = s.terminalNotifs
      ∧ (run_monitoring_loop cfg30 s (pre.map some)).checkCount = s.checkCount + pre.length := by
  induction pre with
  | nil => intro s h1 h2; exact ⟨h1, h2, rfl, rfl⟩
  | cons x xs ih =>
    intro s h1 h2
    have hs := loopStep_some_cfg30 s x
    have hr := ih (loopStep cfg30 s (some x)) (hs.2.1.trans h1) hs.1
    simp only [List.map_cons, run_monitoring_loop, h1, Bool.false_eq_true, if_false]
    refine ⟨hr.1, hr.2.1, hr.2.2.1.trans hs.2.2.1, ?_⟩
    rw [hr.2.2.2, hs.2.2.2, List.length_cons]
    omega

/-- Running `k + 1` consecutive failing iterations from a state whose
counter is `k + 1` short of the budget stops the loop exactly at the
budget, with one terminal notification and nothing further consumed. -/
theorem run_failures_cfg30 (k : Nat) :
    ∀ (s : LoopState) (rest : List (Option (List BetInfo))),
      s.stopped = false → s.consecutiveErrors + (k + 1) = 5 →
      (run_monitoring_loop cfg30 s (List.replicate (k + 1) none ++ rest)).stopped = true
      ∧ (run_monitoring_loop cfg30 s (List.replicate (k + 1) none ++ rest)).terminalNotifs =
          s.terminalNotifs + 1
      ∧ (run_monitoring_loop cfg30 s (List.replicate (k + 1) none ++ rest)).checkCount =
          s.checkCount + (k + 1) := by
  induction k with
  | zero =>
    intro s rest h1 h2
    have hce : s.consecutiveErrors = 4 := by omega
    have hstep : loopStep cfg30 s none =
        { s with
          checkCount := s.checkCount + 1
          consecutiveErrors := s.consecutiveErrors + 1
          terminalNotifs := s.terminalNotifs + 1
          stopped := true } := by
      simp [loopStep, loopFail, cfg30, hce]
    have hrep : List.replicate (0 + 1) (none : Option (List BetInfo)) ++ rest =
        none :: rest := rfl
    rw [hrep, run_cons_not_stopped cfg30 s none rest h1, hstep]
    rw [run_stopped_eq cfg30
      { s with
        checkCount := s.checkCount + 1
        consecutiveErrors := s.consecutiveErrors + 1
        terminalNotifs := s.terminalNotifs + 1
        stopped := true } rfl rest]
    exact ⟨rfl, rfl, rfl⟩
  | succ k ih =>
    intro s rest h1 h2
    have hstep : loopStep cfg30 s none =
        { s with
          checkCount := s.checkCount + 1
          consecutiveErrors := s.consecutiveErrors + 1 } := by
      have hlt : ¬ cfg30.maxErrors ≤ s.consecutiveErrors + 1 := by
        simp only [cfg30]; omega
      simp [loopStep, loopFail, hlt]
    have hrep : List.replicate (k + 1 + 1) (none : Option (List BetInfo)) ++ rest =
        none :: (List.replicate (k + 1) none ++ rest) := rfl
    rw [hrep, run_cons_not_stopped cfg30 s none _ h1, hstep]
    have hr := ih
      { s with
        checkCount := s.checkCount + 1
        consecutiveErrors := s.consecutiveErrors + 1 } rest h1
      (by show s.consecutiveErrors + 1 + (k + 1) = 5; omega)
    refine ⟨hr.1, hr.2.1, ?_⟩
    exact hr.2.2.trans
      (by show s.checkCount + 1 + (k + 1) = s.checkCount + (k + 1 + 1); omega)

/-- Claim C3: with `max_errors = 5`, after any schedule of successful
iterations, five consecutive failing iterations stop the loop right after
the fifth failure is counted — no further iteration runs whatever follows
— with exactly one terminal status notification; and any successful
iteration resets the consecutive-error counter to zero. -/
theorem monitoring_error_budget (pre : List (List BetInfo))
    (rest : List (Option (List BetInfo))) :
    ((run_monitoring_loop cfg30 initLoopState
        (pre.map some ++ (List.replicate 5 none ++ rest))).stopped = true
      ∧ (run_monitoring_loop cfg30 initLoopState
          (pre.map some ++ (List.replicate 5 none ++ rest))).terminalNotifs = 1
      ∧ (run_monitoring_loop cfg30 initLoopState
          (pre.map some ++ (List.replicate 5 none ++ rest))).checkCount = pre.length + 5)
    ∧ (∀ (s : LoopState) (scanned : List BetInfo),
        (loopStep cfg30 s (some scanned)).consecutiveErrors = 0) := by
  constructor
  · rw [run_append_eq]
    have hA := run_successes_cfg30 pre initLoopState rfl rfl
    have hB := run_failures_cfg30 4 (run_monitoring_loop cfg30 initLoopState (pre.map some))
      rest hA.1 (by rw [hA.2.1])
    refine ⟨hB.1, ?_, ?_⟩
    · rw [hB.2.1, hA.2.2.1]
      rfl
    · rw [hB.2.2, hA.2.2.2]
      simp [initLoopState]
  · intro s scanned
    exact (loopStep_some_cfg30 s scanned).1

/-- Claim C9 counterexample: with `check_interval = 3601` (so
`3600 // check_interval = 0`) and every scan succeeding, the loop has not
stopped after `maxErrors = 5` iterations — nor after six — because the
in-iteration reset precedes the division-by-zero raise, so the
consecutive-error counter never exceeds one. -/
theorem hourly_division_no_stop_counterexample :
    (run_monitoring_loop ⟨3601, 5⟩ initLoopState (List.replicate 5 (some []))).stopped = false
    ∧ (run_monitoring_loop ⟨3601, 5⟩ initLoopState
        (List.replicate 5 (some []))).consecutiveErrors = 1
    ∧ (run_monitoring_loop ⟨3601, 5⟩ initLoopState (List.replicate 6 (some []))).stopped = false := by
  decide

/-- With an oversized interval a successful-scan iteration still ends in
the error handler (the hourly modulus divides by zero), leaving the
counter at one, sending no status, and never stopping. -/
theorem loopStep_divzero (i : Nat) (hi : 3600 < i) (s : LoopState) (scanned : List BetInfo) :
    (loopStep ⟨i, 5⟩ s (some scanned)).stopped = s.stopped
    ∧ (loopStep ⟨i, 5⟩ s (some scanned)).terminalNotifs = s.terminalNotifs
    ∧ (loopStep ⟨i, 5⟩ s (some scanned)).statusNotifs = s.statusNotifs
    ∧ (loopStep ⟨i, 5⟩ s (some scanned)).consecutiveErrors = 1 := by
  have hz : 3600 / i = 0 := Nat.div_eq_of_lt hi
  simp only [loopStep, loopFail, hz]
  norm_num
  split <;> simp

/-- Running any all-success schedule under an oversized interval: the loop
never stops, no terminal or hourly status is sent, and the counter ends at
one whenever at least one iteration ran. -/
theorem run_oversized (i : Nat) (hi : 3600 < i) (scans : List (List BetInfo)) :
    ∀ s : LoopState, s.stopped = false →
      (run_monitoring_loop ⟨i, 5⟩ s (scans.map some)).stopped = false
      ∧ (run_monitoring_loop ⟨i, 5⟩ s (scans.map some)).terminalNotifs = s.terminalNotifs
      ∧ (run_monitoring_loop ⟨i, 5⟩ s (scans.map some)).statusNotifs = s.statusNotifs
      ∧ (scans ≠ [] →
          (run_monitoring_loop ⟨i, 5⟩ s (scans.map some)).consecutiveErrors = 1) := by
  induction scans with
  | nil =>
    intro s h1
    exact ⟨h1, rfl, rfl, fun h => absurd rfl h⟩
  | cons x xs ih =>
    intro s h1
    have hstep := loopStep_divzero i hi s x
    have hr := ih (loopStep ⟨i, 5⟩ s (some x)) (hstep.1.trans h1)
    simp only [List.map_cons, run_monitoring_loop, h1, Bool.false_eq_true, if_false]
    refine ⟨hr.1, hr.2.1.trans hstep.2.1, hr.2.2.1.trans hstep.2.2.1, fun _ => ?_⟩
    by_cases hxs : xs = []
    · subst hxs
      exact hstep.2.2.2
    · exact hr.2.2.2 hxs

/-- Claim C9 (amended): if the configured check interval exceeds 3600, the
hourly-status quotient is zero, so the division-by-zero error fires inside
every successful-scan iteration and is counted against the error budget —
but because the counter was reset earlier in the same iteration it never
exceeds one, the hourly status summary is never sent, and the loop does
not stop after `maxErrors` iterations (it never stops on this budget at
all while scans succeed). -/
theorem hourly_division_amended (i : Nat) (hi : 3600 < i) (scans : List (List BetInfo)) :
    3600 / i = 0
    ∧ (run_monitoring_loop ⟨i, 5⟩ initLoopState (scans.map some)).stopped = false
    ∧ (run_monitoring_loop ⟨i, 5⟩ initLoopState (scans.map some)).terminalNotifs = 0
    ∧ (run_monitoring_loop ⟨i, 5⟩ initLoopState (scans.map some)).statusNotifs = 0
    ∧ (scans ≠ [] →
        (run_monitoring_loop ⟨i, 5⟩ initLoopState (scans.map some)).consecutiveErrors = 1) := by
  have h := run_oversized i hi scans initLoopState rfl
  exact ⟨Nat.div_eq_of_lt hi, h.1, h.2.1, h.2.2.1, h.2.2.2⟩

/-- Witness for the amended claim C9 at interval 3601 with one successful
iteration. -/
theorem hourly_division_amended_witness :
    (run_monitoring_loop ⟨3601, 5⟩ initLoopState ([[]].map some)).stopped = false
    ∧ (run_monitoring_loop ⟨3601, 5⟩ initLoopState ([[]].map some)).consecutiveErrors = 1 :=
  ⟨(hourly_division_amended 3601 (by decide) [[]]).2.1,
   (hourly_division_amended 3601 (by decide) [[]]).2.2.2.2 (by decide)⟩

/-! ### Sentinel completeness of extraction (claim C6) -/

/-- Splitting on newlines always yields at least one piece. -/
theorem splitOnNl_ne_nil (cs : List Char) : splitOnNl cs ≠ [] := by
  cases cs with
  | nil => simp [splitOnNl]
  | cons c rest =>
    simp only [splitOnNl]
    split
    · simp
    · split <;> simp

/-- The head surviving `dropWhile` fails the predicate. -/
theorem dropWhile_head_eq_false (p : Char → Bool) :
    ∀ (l : List Char) (c : Char) (t : List Char), l.dropWhile p = c :: t → p c = false := by
  intro l
  induction l with
  | nil => intro c t h; simp [List.dropWhile] at h
  | cons a rest ih =>
    intro c t h
    by_cases hp : p a = true
    · rw [List.dropWhile_cons_of_pos hp] at h
      exact ih c t h
    · rw [List.dropWhile_cons_of_neg hp] at h
      injection h with h1 h2
      rw [← h1]
      simpa [Bool.not_eq_true] using hp

/-- Trimming trailing whitespace preserves the head character. -/
theorem stripTrailing_head (l : List Char) (c : Char) (t : List Char)
    (h : stripTrailing l = c :: t) : ∃ t2, l = c :: t2 := by
  cases l with
  | nil => simp [stripTrailing] at h
  | cons a rest =>
    simp only [stripTrailing] at h
    split at h
    · cases h
    · injection h with h1 h2
      exact ⟨rest, by rw [h1]⟩

/-- A stripped text starts with a non-whitespace character. -/
theorem pyStrip_head_not_ws (cs : List Char) (c : Char) (t : List Char)
    (h : pyStrip cs = c :: t) : c.isWhitespace = false := by
  unfold pyStrip at h
  obtain ⟨t2, ht2⟩ := stripTrailing_head _ c t h
  exact dropWhile_head_eq_false Char.isWhitespace cs c t2 ht2

/-- Splitting a text starting with a non-newline character keeps that
character at the head of the first piece. -/
theorem splitOnNl_head (c : Char) (t : List Char) (hc : ¬ c = '\n') :
    ∃ h2 t2, splitOnNl (c :: t) = (c :: h2) :: t2 := by
  simp only [splitOnNl]
  rw [if_neg hc]
  cases hr : splitOnNl t with
  | nil => exact absurd hr (splitOnNl_ne_nil t)
  | cons h2 t2 =>
    exact ⟨h2, t2, rfl⟩

/-- The first line of the split of a long-enough stripped text is never
the empty string: the stripped text begins with a non-whitespace (hence
non-newline) character, which begins the first line. -/
theorem first_line_ne_empty (rawText : String)
    (hlen : ¬ (pyStripStr rawText).length < 10) :
    ∀ (l0 : String) (rest : List String),
      pySplit (pyStripStr rawText) = l0 :: rest → l0 ≠ "" := by
  intro l0 rest heq
  cases hs : pyStrip rawText.toList with
  | nil =>
    exfalso
    apply hlen
    show (pyStripStr rawText).length < 10
    rw [pyStripStr, hs]
    decide
  | cons c t =>
    have hws := pyStrip_head_not_ws rawText.toList c t hs
    have hcn : ¬ c = '\n' := by
      intro hc
      rw [hc] at hws
      exact absurd hws (by decide)
    obtain ⟨h2, t2, hsplit⟩ := splitOnNl_head c t hcn
    have hview : pySplit (pyStripStr rawText) = (splitOnNl (c :: t)).map List.asString := by
      show (splitOnNl (pyStripStr rawText).toList).map List.asString = _
      rw [pyStripStr, hs]
      rfl
    rw [hview, hsplit] at heq
    injection heq with he1 _
    intro h0
    rw [← he1] at h0
    exact List.noConfusion (congrArg String.data h0)

/-- Claim C6: for any container text accepted by `_extract_bet_info`,
every field of the produced record is either a line of the input (the line
its matcher selected, or for participants the first-line fallback) or
exactly the field's `"Unknown <Field>"` sentinel; no field is ever the
empty string; and the five fields are computed by five independent
matchers, so one matcher's miss cannot disturb another field. -/
theorem extraction_sentinels (betId rawText : String) (bi : BetInfo)
    (h : extract_bet_info betId rawText = some bi) :
    ((bi.teams ∈ pySplit (pyStripStr rawText) ∨ bi.teams = "Unknown Teams")
        ∧ bi.teams ≠ "")
    ∧ ((bi.market ∈ pySplit (pyStripStr rawText) ∨ bi.market = "Unknown Market")
        ∧ bi.market ≠ "")
    ∧ ((bi.stake ∈ pySplit (pyStripStr rawText) ∨ bi.stake = "Unknown Stake")
        ∧ bi.stake ≠ "")
    ∧ ((bi.odds ∈ pySplit (pyStripStr rawText) ∨ bi.odds = "Unknown Odds")
        ∧ bi.odds ≠ "")
    ∧ ((bi.possible_winnings ∈ pySplit (pyStripStr rawText)
          ∨ bi.possible_winnings = "Unknown Winnings")
        ∧ bi.possible_winnings ≠ "")
    ∧ bi = { betslip_id := betId
             teams := extract_teams (pySplit (pyStripStr rawText))
             market := extract_market (pySplit (pyStripStr rawText))
             stake := extract_stake (pySplit (pyStripStr rawText))
             odds := extract_odds (pySplit (pyStripStr rawText))
             possible_winnings := extract_winnings (pySplit (pyStripStr rawText))
             status := "Active" } := by
  simp only [extract_bet_info] at h
  by_cases hlen : (pyStripStr rawText).length < 10
  · rw [if_pos hlen] at h
    cases h
  · rw [if_neg hlen] at h
    injection h with hbi
    subst hbi
    refine ⟨⟨?_, ?_⟩, ⟨?_, ?_⟩, ⟨?_, ?_⟩, ⟨?_, ?_⟩, ⟨?_, ?_⟩, rfl⟩
    · cases hf : (pySplit (pyStripStr rawText)).find? (fun line =>
          strContains line " vs " || strContains line " v " || strContains line " - ") with
      | some l =>
        simp only [extract_teams, hf]
        exact Or.inl (List.mem_of_find?_eq_some hf)
      | none =>
        simp only [extract_teams, hf]
        cases hl : pySplit (pyStripStr rawText) with
        | nil => right; simp
        | cons l0 r => left; simp [hl]
    · cases hf : (pySplit (pyStripStr rawText)).find? (fun line =>
          strContains line " vs " || strContains line " v " || strContains line " - ") with
      | some l =>
        simp only [extract_teams, hf]
        have hp := List.find?_some hf
        intro h0
        rw [h0] at hp
        exact absurd hp (by decide)
      | none =>
        simp only [extract_teams, hf]
        cases hl : pySplit (pyStripStr rawText) with
        | nil => simp
        | cons l0 r =>
          simp only [hl, List.headD_cons]
          exact first_line_ne_empty rawText hlen l0 r hl
    · cases hf : (pySplit (pyStripStr rawText)).find? (fun line =>
          marketKeywords.any (fun k => strContains line k)) with
      | some l =>
        simp only [extract_market, hf]
        exact Or.inl (List.mem_of_find?_eq_some hf)
      | none => simp only [extract_market, hf]; right; trivial
    · cases hf : (pySplit (pyStripStr rawText)).find? (fun line =>
          marketKeywords.any (fun k => strContains line k)) with
      | some l =>
        simp only [extract_market, hf]
        have hp := List.find?_some hf
        intro h0
        rw [h0] at hp
        exact absurd hp (by decide)
      | none => simp only [extract_market, hf]; decide
    · cases hf : (pySplit (pyStripStr rawText)).find? (fun line =>
          strContains line "€" || strContains line "$" || strContains line "£") with
      | some l =>
        simp only [extract_stake, hf]
        exact Or.inl (List.mem_of_find?_eq_some hf)
      | none => simp only [extract_stake, hf]; right; trivial
    · cases hf : (pySplit (pyStripStr rawText)).find? (fun line =>
          strContains line "€" || strContains line "$" || strContains line "£") with
      | some l =>
        simp only [extract_stake, hf]
        have hp := List.find?_some hf
        intro h0
        rw [h0] at hp
        exact absurd hp (by decide)
      | none => simp only [extract_stake, hf]; decide
    · cases hf : (pySplit (pyStripStr rawText)).find? hasOddsLine with
      | some l =>
        simp only [extract_odds, hf]
        exact Or.inl (List.mem_of_find?_eq_some hf)
      | none => simp only [extract_odds, hf]; right; trivial
    · cases hf : (pySplit (pyStripStr rawText)).find? hasOddsLine with
      | some l =>
        simp only [extract_odds, hf]
        have hp := List.find?_some hf
        intro h0
        rw [h0] at hp
        exact absurd hp (by decide)
      | none => simp only [extract_odds, hf]; decide
    · cases hf : (pySplit (pyStripStr rawText)).find? (fun line =>
          winningsKeywords.any (fun k => strContains (pyLower line) k)) with
      | some l =>
        simp only [extract_winnings, hf]
        exact Or.inl (List.mem_of_find?_eq_some hf)
      | none => simp only [extract_winnings, hf]; right; trivial
    · cases hf : (pySplit (pyStripStr rawText)).find? (fun line =>
          winningsKeywords.any (fun k => strContains (pyLower line) k)) with
      | some l =>
        simp only [extract_winnings, hf]
        have hp := List.find?_some hf
        intro h0
        rw [h0] at hp
        exact absurd hp (by decide)
      | none => simp only [extract_winnings, hf]; decide

/-- Witness for claim C6 at a concrete container text without any
matchable market/stake/odds/payout line. -/
theorem extraction_sentinels_witness :
    (("NoKeywordsHere123" ∈ pySplit (pyStripStr "NoKeywordsHere123")
        ∨ "NoKeywordsHere123" = "Unknown Teams") ∧ "NoKeywordsHere123" ≠ "")
    ∧ (("Unknown Market" ∈ pySplit (pyStripStr "NoKeywordsHere123")
        ∨ "Unknown Market" = "Unknown Market") ∧ "Unknown Market" ≠ "") :=
  have h := extraction_sentinels "idX" "NoKeywordsHere123"
    ⟨"idX", "NoKeywordsHere123", "Unknown Market", "Unknown Stake", "Unknown Odds",
      "Unknown Winnings", "Active"⟩ (by decide)
  ⟨h.1, h.2.1⟩

end BetMonitor
